import Mathlib

/-!
Verification of the Little Red Bandwagon podcast feed parser
(`parser.py`) against its natural-language specification.

The development shallowly embeds the three core components:
the duration formatter `timedelta_to_str`, the text normalizer
`unsmart_quotes`, and the episode normalizer `process_episodes`.
Python integers are modelled as `Int` (with `Int.fdiv` / `Int.fmod`
matching Python's floor division and `divmod`), strings as `String`
over their `List Char` data, and Python exceptions as `Option.none`.
-/

namespace LRB

/-! ## Model of Python `string.Formatter` templates

`string.Formatter.parse` splits a format string into segments of
literal text and replacement fields.  A replacement field `{name:spec}`
carries a field name and a format spec.  We model the subset of the
format-string mini-language exercised by the program: `{{` / `}}`
escapes, simple (non-nested) replacement fields, and the integer
format specs of the form `[0]width` (zero- or space-padded,
right-aligned), which is everything `parser.py` ever passes. -/

inductive Seg where
  | lit : String → Seg
  | field : String → String → Seg
deriving DecidableEq, Repr

/-- Split field contents `name:spec` at the first colon, as
`string.Formatter.parse` does. -/
def mkField (cs : List Char) : Seg :=
  let name := cs.takeWhile (fun c => c ≠ ':')
  let rest := cs.dropWhile (fun c => c ≠ ':')
  match rest with
  | [] => Seg.field (String.mk name) ""
  | _ :: spec => Seg.field (String.mk name) (String.mk spec)

/-- Model of `string.Formatter.parse` as a two-mode scanner:
`none` mode scans literal text (handling the `{{` and `}}` escapes),
`some acc` mode is inside a replacement field accumulating its
(reversed) contents up to the closing brace.  Literal characters are
kept one segment per character (rendering concatenates them, so this
is observationally the same as Python's maximal literal runs).  A
`none` result models the `ValueError` raised on a malformed template
(stray or unclosed brace). -/
def parseFmtA : Option (List Char) → List Char → Option (List Seg)
  | none, [] => some []
  | none, '{' :: '{' :: rest => (parseFmtA none rest).map (Seg.lit "\x7b" :: ·)
  | none, '}' :: '}' :: rest => (parseFmtA none rest).map (Seg.lit "\x7d" :: ·)
  | none, '{' :: rest => parseFmtA (some []) rest
  | none, '}' :: _ => none
  | none, c :: rest => (parseFmtA none rest).map (Seg.lit (String.mk [c]) :: ·)
  | some _, [] => none
  | some acc, '}' :: rest => (parseFmtA none rest).map (mkField acc.reverse :: ·)
  | some acc, c :: rest => parseFmtA (some (c :: acc)) rest

def parseFmt (cs : List Char) : Option (List Seg) :=
  parseFmtA none cs

def digitsToNat (cs : List Char) : Nat :=
  cs.foldl (fun a c => a * 10 + (c.toNat - 48)) 0

def padLeft (fill : Char) (w : Nat) (s : String) : String :=
  String.mk (List.replicate (w - s.length) fill ++ s.data)

/-- Zero padding of an integer is sign-aware in Python
(`format(-5, "03") = "-05"`). -/
def zeroPadInt (w : Nat) (n : Int) : String :=
  if n < 0 then "-" ++ padLeft '0' (w - 1) (toString (-n))
  else padLeft '0' w (toString n)

/-- Model of formatting one integer with a format spec: `""` is `str`,
a digit string is a width (space-padded, right-aligned), and a leading
`0` selects sign-aware zero padding.  Any other spec is outside the
modelled subset and maps to `none`. -/
def formatIntSpec (spec : String) (n : Int) : Option String :=
  if spec = "" then some (toString n)
  else if spec.data.all Char.isDigit then
    if spec.data.head? = some '0' then
      some (zeroPadInt (digitsToNat (spec.data.drop 1)) n)
    else
      some (padLeft ' ' (digitsToNat spec.data) (toString n))
  else none

/-- Render one segment given the mapping of computed field values.
A field whose name has no value models Python's `KeyError` (`none`). -/
def renderSeg (values : List (String × Int)) : Seg → Option String
  | Seg.lit s => some s
  | Seg.field name spec =>
    match values.lookup name with
    | some v => formatIntSpec spec v
    | none => none

/-- Model of `Formatter.format(format_string, **values)` on already
parsed segments. -/
def renderFmt (segs : List Seg) (values : List (String × Int)) : Option String :=
  (segs.mapM (renderSeg values)).map (fun parts => String.join parts)

/-! ## `timedelta_to_str` (parser.py lines 42–96) -/

/-- The seconds-conversion branch of `timedelta_to_str` (lines 74–85):
`"timedelta"` takes `int(total_seconds())` which is the value itself in
our seconds-valued model; the unit names scale linearly; any other
string leaves `remainder` unbound, modelled as `none`. -/
def toSeconds (input_type : String) (v : Int) : Option Int :=
  if input_type = "timedelta" then some v
  else if input_type = "s" ∨ input_type = "seconds" then some v
  else if input_type = "m" ∨ input_type = "minutes" then some (v * 60)
  else if input_type = "h" ∨ input_type = "hours" then some (v * 3600)
  else if input_type = "d" ∨ input_type = "days" then some (v * 86400)
  else if input_type = "w" ∨ input_type = "weeks" then some (v * 604800)
  else none

def possibleFields : List String := ["W", "D", "H", "M", "S"]

def constants (f : String) : Option Int :=
  if f = "W" then some 604800
  else if f = "D" then some 86400
  else if f = "H" then some 3600
  else if f = "M" then some 60
  else if f = "S" then some 1
  else none

/-- The divmod loop of `timedelta_to_str` (lines 92–94): walk the
possible fields in descending unit order; for each one referenced in
the template, take `divmod(remainder, constants[field])`. -/
def computeValues (desired : List String) (r : Int) : List (String × Int) × Int :=
  possibleFields.foldl
    (fun acc f =>
      if f ∈ desired then
        match constants f with
        | some c => (acc.1 ++ [(f, acc.2.fdiv c)], acc.2.fmod c)
        | none => acc
      else acc)
    ([], r)

def desiredFields (segs : List Seg) : List String :=
  segs.filterMap (fun s =>
    match s with
    | Seg.field n _ => some n
    | Seg.lit _ => none)

/-- `timedelta_to_str(time_delta, format_string, input_type)`
(parser.py lines 42–96).  The input value is the number passed to the
function, interpreted per `input_type`.  `none` collects every way the
Python function raises: malformed template (`ValueError` from
`Formatter.parse`), an unrecognized `input_type` whose unbound
`remainder` is then read by the divmod loop (`UnboundLocalError`), and
a field name with no computed value (`KeyError` from `format`).  When
no field of `W`/`D`/`H`/`M`/`S` is referenced the loop never reads
`remainder`, so an unrecognized `input_type` goes unnoticed — exactly
as in the source. -/
def timedelta_to_str (time_delta : Int) (format_string : String)
    (input_type : String) : Option String :=
  match parseFmt format_string.data with
  | none => none
  | some segs =>
    let desired := desiredFields segs
    if possibleFields.any (fun f => decide (f ∈ desired)) then
      match toSeconds input_type time_delta with
      | none => none
      | some r => renderFmt segs (computeValues desired r).1
    else
      renderFmt segs []

/-! ## `unsmart_quotes` (parser.py lines 34–39)

`str.replace` with a single-character pattern and single-character
replacement substitutes every occurrence of that character, i.e. it is
a character map over the string. -/

def replaceChar (a b : Char) (s : String) : String :=
  String.mk (s.data.map (fun c => if c = a then b else c))

/-- `unsmart_quotes(text)`: replace U+2019 with an ASCII apostrophe,
then U+201D and U+201C with ASCII double quotes, in source order. -/
def unsmart_quotes (text : String) : String :=
  let t1 := replaceChar (Char.ofNat 0x2019) (Char.ofNat 39) text
  let t2 := replaceChar (Char.ofNat 0x201D) (Char.ofNat 34) t1
  replaceChar (Char.ofNat 0x201C) (Char.ofNat 34) t2

/-! ## `process_episodes` (parser.py lines 117–147) -/

/-- `str.replace(r"\+", "+")`: leftmost, non-overlapping replacement of
the two-character sequence backslash-plus by a bare plus. -/
def replaceBackslashPlus : List Char → List Char
  | '\\' :: '+' :: rest => '+' :: replaceBackslashPlus rest
  | c :: rest => c :: replaceBackslashPlus rest
  | [] => []

/-- ASCII whitespace as stripped by `str.strip()` (Python also strips
some Unicode space code points, which the feed URLs never contain). -/
def isPyWhitespace (c : Char) : Bool :=
  c = ' ' ∨ c = '\t' ∨ c = '\n' ∨ c = '\r' ∨ c = Char.ofNat 11 ∨ c = Char.ofNat 12

def pyStrip (s : String) : String :=
  String.mk (((s.data.dropWhile isPyWhitespace).reverse.dropWhile isPyWhitespace).reverse)

def pad2 (n : Nat) : String :=
  if n < 10 then "0" ++ toString n else toString n

def pad4 (n : Nat) : String :=
  padLeft '0' 4 (toString n)

/-- Gregorian date from a day count since the Unix epoch
(civil-from-days). -/
def civilFromDays (z0 : Int) : Int × Int × Int :=
  let z := z0 + 719468
  let era := z.fdiv 146097
  let doe := z - era * 146097
  let yoe := (doe - doe.fdiv 1460 + doe.fdiv 36524 - doe.fdiv 146096).fdiv 365
  let y := yoe + era * 400
  let doy := doe - (365 * yoe + yoe.fdiv 4 - yoe.fdiv 100)
  let mp := (5 * doy + 2).fdiv 153
  let d := doy - (153 * mp + 2).fdiv 5 + 1
  let m := mp + (if mp < 10 then 3 else -9)
  (y + (if m ≤ 2 then 1 else 0), m, d)

/-- `datetime.fromtimestamp(epoch, timezone.utc).strftime("%Y-%m-%d %H:%M:%S %Z")`
(parser.py lines 127–130). -/
def formatUTCTimestamp (epoch : Int) : String :=
  let days := epoch.fdiv 86400
  let secs := (epoch.fmod 86400).toNat
  let ymd := civilFromDays days
  pad4 ymd.1.toNat ++ "-" ++ pad2 ymd.2.1.toNat ++ "-" ++ pad2 ymd.2.2.toNat ++ " " ++
    pad2 (secs / 3600) ++ ":" ++ pad2 (secs % 3600 / 60) ++ ":" ++ pad2 (secs % 60) ++ " UTC"

structure Enclosure where
  url : String
deriving DecidableEq, Repr

/-- A raw episode record as produced by `podcastparser`: the keys
`process_episodes` reads.  `total_time` is optional (`episode.get`),
every other key is accessed directly. -/
structure RawEpisode where
  guid : String
  title : String
  description_html : String
  enclosures : List Enclosure
  published : Int
  total_time : Option Int
deriving DecidableEq, Repr

/-- A render-ready episode record: the dict appended at
parser.py lines 135–145. -/
structure Episode where
  guid : String
  title : String
  published_date : String
  total_time : String
  description : String
  raw_description : String
  enclosure_url : String
deriving DecidableEq, Repr

/-- The loop body of `process_episodes` (lines 120–145) for one raw
episode.  `unicodedata.normalize("NFKC", ·)` is an external library
call, taken as the parameter `nfkc`.  `none` models the `IndexError`
raised by `episode["enclosures"][0]` on an empty enclosure list (the
only way the body can raise on an otherwise well-formed record). -/
def processEpisode (nfkc : String → String) (episode : RawEpisode) : Option Episode :=
  match episode.enclosures with
  | [] => none
  | enc :: _ =>
    match timedelta_to_str (episode.total_time.getD 0) "{H:2}:{M:02}:{S:02}" "timedelta" with
    | none => none
    | some tstr =>
      some
        { guid := episode.guid
          title := unsmart_quotes episode.title
          published_date := formatUTCTimestamp episode.published
          total_time := tstr
          description :=
            nfkc (String.mk (replaceBackslashPlus (unsmart_quotes episode.description_html).data))
          raw_description := episode.description_html
          enclosure_url := pyStrip enc.url }

/-- `process_episodes(raw_episodes)`: process records in order; the
first record that raises aborts the whole batch (the Python exception
propagates out of the loop, so no partial list is returned). -/
def process_episodes (nfkc : String → String) : List RawEpisode → Option (List Episode)
  | [] => some []
  | ep :: rest =>
    match processEpisode nfkc ep with
    | none => none
    | some e =>
      match process_episodes nfkc rest with
      | none => none
      | some es => some (e :: es)

/-! ## Supporting lemmas about the formatter -/

theorem parseFmtA_none_cons_other (c : Char) (rest : List Char)
    (h1 : c ≠ '{') (h2 : c ≠ '}') :
    parseFmtA none (c :: rest) =
      (parseFmtA none rest).map (Seg.lit (String.mk [c]) :: ·) := by
  rw [parseFmtA.eq_def]
  split <;> simp_all

theorem parseFmtA_no_braces (cs : List Char) (h : ∀ c ∈ cs, c ≠ '{' ∧ c ≠ '}') :
    parseFmtA none cs = some (cs.map (fun c => Seg.lit (String.mk [c]))) := by
  induction cs with
  | nil => rfl
  | cons c rest ih =>
    obtain ⟨h1, h2⟩ := h c (List.mem_cons_self c rest)
    rw [parseFmtA_none_cons_other c rest h1 h2,
      ih (fun x hx => h x (List.mem_cons_of_mem c hx))]
    rfl

theorem foldl_append_singletons (cs : List Char) :
    ∀ s : String,
      List.foldl (fun r t => r ++ t) s (cs.map (fun c => String.mk [c])) =
        String.mk (s.data ++ cs) := by
  induction cs with
  | nil =>
    intro s
    show s = String.mk (s.data ++ [])
    rw [List.append_nil]
  | cons c rest ih =>
    intro s
    simp only [List.map_cons, List.foldl_cons]
    rw [ih]
    show String.mk ((s.data ++ [c]) ++ rest) = String.mk (s.data ++ c :: rest)
    rw [List.append_assoc]
    rfl

theorem join_singletons (cs : List Char) :
    String.join (cs.map (fun c => String.mk [c])) = String.mk cs :=
  foldl_append_singletons cs ""

theorem mapM_renderSeg_lits (values : List (String × Int)) (cs : List Char) :
    (cs.map (fun c => Seg.lit (String.mk [c]))).mapM (renderSeg values) =
      some (cs.map (fun c => String.mk [c])) := by
  induction cs with
  | nil => rfl
  | cons c rest ih =>
    simp only [List.map_cons, List.mapM_cons, ih, renderSeg]
    rfl

theorem renderFmt_lits (values : List (String × Int)) (cs : List Char) :
    renderFmt (cs.map (fun c => Seg.lit (String.mk [c]))) values =
      some (String.mk cs) := by
  unfold renderFmt
  rw [mapM_renderSeg_lits]
  simp [join_singletons]

theorem desiredFields_lits (cs : List Char) :
    desiredFields (cs.map (fun c => Seg.lit (String.mk [c]))) = [] := by
  induction cs with
  | nil => rfl
  | cons c rest ih => simp [desiredFields] at ih ⊢

/-! ## Key computation lemmas -/

/-- Rendering of the fixed `"{H:2}:{M:02}:{S:02}"` template used by
`process_episodes`, for any seconds value. -/
theorem timedelta_to_str_hms (t : Int) :
    timedelta_to_str t "{H:2}:{M:02}:{S:02}" "timedelta" =
      some (padLeft ' ' 2 (toString (t.fdiv 3600)) ++ ":" ++
        zeroPadInt 2 ((t.fmod 3600).fdiv 60) ++ ":" ++
        zeroPadInt 2 (((t.fmod 3600).fmod 60).fdiv 1)) := rfl

theorem processEpisode_some (nfkc : String → String) (ep : RawEpisode)
    (henc : ep.enclosures ≠ []) :
    processEpisode nfkc ep =
      some
        { guid := ep.guid
          title := unsmart_quotes ep.title
          published_date := formatUTCTimestamp ep.published
          total_time :=
            padLeft ' ' 2 (toString ((ep.total_time.getD 0).fdiv 3600)) ++ ":" ++
              zeroPadInt 2 (((ep.total_time.getD 0).fmod 3600).fdiv 60) ++ ":" ++
              zeroPadInt 2 ((((ep.total_time.getD 0).fmod 3600).fmod 60).fdiv 1)
          description :=
            nfkc (String.mk (replaceBackslashPlus (unsmart_quotes ep.description_html).data))
          raw_description := ep.description_html
          enclosure_url := pyStrip (ep.enclosures.head henc).url } := by
  match hep : ep.enclosures, henc with
  | enc :: rest, _ =>
    simp [processEpisode, hep, timedelta_to_str_hms]

/-- Rendering of a template referencing only `H` and `M`, for any
seconds value: `H` takes the full `divmod` by 3600, `M` the remaining
whole minutes. -/
theorem timedelta_to_str_hm (t : Int) :
    timedelta_to_str t "{H}h {M:02}m" "timedelta" =
      some (toString (t.fdiv 3600) ++ "h" ++ " " ++
        zeroPadInt 2 ((t.fmod 3600).fdiv 60) ++ "m") := rfl

/-- Rendering of a template referencing only `M` and `S`, for any
seconds value: all larger units fold into the minutes field. -/
theorem timedelta_to_str_ms (t : Int) :
    timedelta_to_str t "{M}m {S:02}s" "timedelta" =
      some (toString (t.fdiv 60) ++ "m" ++ " " ++
        zeroPadInt 2 ((t.fmod 60).fdiv 1) ++ "s") := rfl

/-! ## Claims about the duration formatter -/

/-- C1: for every non-negative integer `d`, the duration formatter on
template `"{H:2}:{M:02}:{S:02}"` with the as-is ("duration"/timedelta)
unit renders the unique decomposition `d = 3600*H + 60*M + S`
(`0 ≤ M, S < 60`), hours space-padded to width 2 and minutes/seconds
zero-padded to width 2; in particular `d = 3725` gives `" 1:02:05"`. -/
theorem claim_C1_hms_decomposition :
    (∀ d : Nat, ∃ H M S : Nat,
      d = 3600 * H + 60 * M + S ∧ M < 60 ∧ S < 60 ∧
      (∀ H2 M2 S2 : Nat,
        d = 3600 * H2 + 60 * M2 + S2 → M2 < 60 → S2 < 60 →
          H2 = H ∧ M2 = M ∧ S2 = S) ∧
      timedelta_to_str (d : Int) "{H:2}:{M:02}:{S:02}" "timedelta" =
        some (padLeft ' ' 2 (toString ((H : Int))) ++ ":" ++
          zeroPadInt 2 ((M : Int)) ++ ":" ++ zeroPadInt 2 ((S : Int)))) ∧
    timedelta_to_str 3725 "{H:2}:{M:02}:{S:02}" "timedelta" = some " 1:02:05" := by
  refine ⟨?_, by decide⟩
  intro d
  refine ⟨d / 3600, d % 3600 / 60, d % 60, by omega, by omega, by omega, by omega, ?_⟩
  rw [timedelta_to_str_hms]
  have h1 : (d : Int).fdiv 3600 = ((d / 3600 : Nat) : Int) := by
    rw [Int.fdiv_eq_ediv _ (by norm_num)]; omega
  have h2 : ((d : Int).fmod 3600).fdiv 60 = ((d % 3600 / 60 : Nat) : Int) := by
    rw [Int.fmod_eq_emod _ (by norm_num), Int.fdiv_eq_ediv _ (by norm_num)]; omega
  have h3 : (((d : Int).fmod 3600).fmod 60).fdiv 1 = ((d % 60 : Nat) : Int) := by
    rw [Int.fdiv_one, Int.fmod_eq_emod _ (by norm_num),
      Int.fmod_eq_emod _ (by norm_num)]
    omega
  rw [h1, h2, h3]

/-- C2: the spec requires an unrecognized `input_unit` to fail with
`InvalidUnitError` and never to proceed silently.  The code violates
this: with a template referencing none of `W`/`D`/`H`/`M`/`S`, the
unbound seconds count is never read, and the call silently succeeds,
returning the template text — here `format_duration(5, "x", "bogus")`
returns `"x"`. -/
theorem claim_C2_silent_success_on_bad_unit :
    timedelta_to_str 5 "x" "bogus" = some "x" := by decide

/-- C5: for a template referencing only `H` and `M`, the `H` value is
the total elapsed hours `⌊d / 3600⌋` (not capped at 24) and `M` is the
remaining whole minutes; a template referencing only `M` and `S` folds
everything above minutes into `M`.  In particular 90000 seconds render
as `"25h 00m"`. -/
theorem claim_C5_fold_unreferenced_units :
    (∀ d : Nat,
      timedelta_to_str (d : Int) "{H}h {M:02}m" "timedelta" =
        some (toString ((d / 3600 : Nat) : Int) ++ "h" ++ " " ++
          zeroPadInt 2 ((d % 3600 / 60 : Nat) : Int) ++ "m")) ∧
    (∀ d : Nat,
      timedelta_to_str (d : Int) "{M}m {S:02}s" "timedelta" =
        some (toString ((d / 60 : Nat) : Int) ++ "m" ++ " " ++
          zeroPadInt 2 ((d % 60 : Nat) : Int) ++ "s")) ∧
    timedelta_to_str 90000 "{H}h {M:02}m" "timedelta" = some "25h 00m" := by
  refine ⟨?_, ?_, by decide⟩
  · intro d
    rw [timedelta_to_str_hm]
    have h1 : (d : Int).fdiv 3600 = ((d / 3600 : Nat) : Int) := by
      rw [Int.fdiv_eq_ediv _ (by norm_num)]; omega
    have h2 : ((d : Int).fmod 3600).fdiv 60 = ((d % 3600 / 60 : Nat) : Int) := by
      rw [Int.fmod_eq_emod _ (by norm_num), Int.fdiv_eq_ediv _ (by norm_num)]; omega
    rw [h1, h2]
  · intro d
    rw [timedelta_to_str_ms]
    have h1 : (d : Int).fdiv 60 = ((d / 60 : Nat) : Int) := by
      rw [Int.fdiv_eq_ediv _ (by norm_num)]; omega
    have h2 : ((d : Int).fmod 60).fdiv 1 = ((d % 60 : Nat) : Int) := by
      rw [Int.fdiv_one, Int.fmod_eq_emod _ (by norm_num)]; omega
    rw [h1, h2]

/-- C10: a template with no replacement fields at all is returned
unchanged for every value and every `input_type` string, including an
unrecognized one — unit validation is skipped entirely because the
divmod loop never reads the seconds count. -/
theorem claim_C10_fieldless_template_passthrough
    (s : String) (v : Int) (input_type : String)
    (h : ∀ c ∈ s.data, c ≠ '{' ∧ c ≠ '}') :
    timedelta_to_str v s input_type = some s := by
  unfold timedelta_to_str parseFmt
  rw [parseFmtA_no_braces s.data h]
  simp only [desiredFields_lits]
  rw [if_neg (by decide)]
  rw [renderFmt_lits]

/-- Witness for C10 at a concrete fieldless template and bad unit. -/
theorem claim_C10_witness :
    timedelta_to_str 5 "abc" "bogus" = some "abc" :=
  claim_C10_fieldless_template_passthrough "abc" 5 "bogus" (by decide)

/-! ## Claims about the text normalizer -/

/-- The per-character substitution described by the spec: exactly
U+2019 → apostrophe, U+201C → double quote, U+201D → double quote,
everything else unchanged. -/
def smartQuoteMap (c : Char) : Char :=
  if c = Char.ofNat 0x2019 then Char.ofNat 39
  else if c = Char.ofNat 0x201C then Char.ofNat 34
  else if c = Char.ofNat 0x201D then Char.ofNat 34
  else c

theorem unsmart_char_pointwise (c : Char) :
    (fun x => if x = Char.ofNat 0x201C then Char.ofNat 34 else x)
      ((fun x => if x = Char.ofNat 0x201D then Char.ofNat 34 else x)
        ((fun x => if x = Char.ofNat 0x2019 then Char.ofNat 39 else x) c)) =
      smartQuoteMap c := by
  by_cases h1 : c = Char.ofNat 0x2019
  · subst h1; decide
  by_cases h2 : c = Char.ofNat 0x201D
  · subst h2; decide
  by_cases h3 : c = Char.ofNat 0x201C
  · subst h3; decide
  simp [smartQuoteMap, h1, h2, h3]

/-- `unsmart_quotes` is the character map `smartQuoteMap` applied to
every character. -/
theorem unsmart_quotes_eq_map (s : String) :
    unsmart_quotes s = String.mk (s.data.map smartQuoteMap) := by
  show String.mk (((s.data.map _).map _).map _) = _
  rw [List.map_map, List.map_map]
  exact congrArg String.mk (List.map_congr_left (fun c _ => unsmart_char_pointwise c))

theorem smartQuoteMap_idem (c : Char) : smartQuoteMap (smartQuoteMap c) = smartQuoteMap c := by
  by_cases h1 : c = Char.ofNat 0x2019
  · subst h1; decide
  by_cases h2 : c = Char.ofNat 0x201D
  · subst h2; decide
  by_cases h3 : c = Char.ofNat 0x201C
  · subst h3; decide
  simp [smartQuoteMap, h1, h2, h3]

/-- C8: the text normalizer replaces exactly the three code points
U+2019 (→ apostrophe), U+201C and U+201D (→ double quote) and leaves
every other character, U+2018 included, unchanged; in particular it
maps the string It(U+2019)s a (U+201C)test(U+201D) to the plain-ASCII
quoted form. -/
theorem claim_C8_three_code_points :
    (∀ s : String, unsmart_quotes s = String.mk (s.data.map smartQuoteMap)) ∧
    unsmart_quotes "It’s a “test”" =
      String.mk ['I', 't', Char.ofNat 39, 's', ' ', 'a', ' ',
        Char.ofNat 34, 't', 'e', 's', 't', Char.ofNat 34] ∧
    unsmart_quotes (String.mk [Char.ofNat 0x2018]) = String.mk [Char.ofNat 0x2018] :=
  ⟨unsmart_quotes_eq_map, by decide, by decide⟩

/-- C9: the text normalizer is idempotent. -/
theorem claim_C9_idempotent (s : String) :
    unsmart_quotes (unsmart_quotes s) = unsmart_quotes s := by
  rw [unsmart_quotes_eq_map s, unsmart_quotes_eq_map, List.map_map]
  exact congrArg String.mk (List.map_congr_left (fun c _ => smartQuoteMap_idem c))

/-! ## Claims about the episode normalizer -/

/-- Sample raw episodes used by the closed witness theorems. -/
def sampleEpisode : RawEpisode :=
  { guid := "guid-1"
    title := "Episode “One”"
    description_html := "<p>A\\+B</p>"
    enclosures := [⟨" https://example.com/1.mp3 "⟩]
    published := 1700000000
    total_time := some 3725 }

def sampleNoDuration : RawEpisode :=
  { sampleEpisode with guid := "guid-2", total_time := none }

def sampleNoEnclosure : RawEpisode :=
  { sampleEpisode with guid := "guid-3", enclosures := [] }

/-- C3: a record with an empty enclosure list makes normalization of
the whole batch fail at that record with no partial output, provided
every record before it is well-formed (the failure is an exception, so
nothing after the malformed record is processed either). -/
theorem claim_C3_empty_enclosures_abort (nfkc : String → String)
    (pre : List RawEpisode) (bad : RawEpisode) (post : List RawEpisode)
    (hbad : bad.enclosures = [])
    (hpre : ∀ ep ∈ pre, ep.enclosures ≠ []) :
    process_episodes nfkc (pre ++ bad :: post) = none := by
  induction pre with
  | nil => simp [process_episodes, processEpisode, hbad]
  | cons p rest ih =>
    have hp := processEpisode_some nfkc p (hpre p (List.mem_cons_self p rest))
    have ihh := ih (fun x hx => hpre x (List.mem_cons_of_mem p hx))
    simp [process_episodes, hp, ihh]

/-- Witness for C3: a good record followed by an enclosure-less one. -/
theorem claim_C3_witness :
    process_episodes id ([sampleEpisode] ++ sampleNoEnclosure :: []) = none :=
  claim_C3_empty_enclosures_abort id [sampleEpisode] sampleNoEnclosure []
    rfl (by decide)

/-- C4: a record with no `total_time` key normalizes without error and
its duration display string is `" 0:00:00"`. -/
theorem claim_C4_missing_total_time_defaults (nfkc : String → String)
    (ep : RawEpisode) (htt : ep.total_time = none) (henc : ep.enclosures ≠ []) :
    ∃ out, processEpisode nfkc ep = some out ∧ out.total_time = " 0:00:00" := by
  refine ⟨_, processEpisode_some nfkc ep henc, ?_⟩
  simp only [htt]
  decide

/-- Witness for C4 at a concrete record lacking `total_time`. -/
theorem claim_C4_witness :
    ∃ out, processEpisode id sampleNoDuration = some out ∧
      out.total_time = " 0:00:00" :=
  claim_C4_missing_total_time_defaults id sampleNoDuration rfl (by decide)

/-- C6: on a batch of well-formed records, normalization succeeds and
is 1:1 and order-preserving: the output has the same length and the
i-th output record is produced from the i-th input record, with the
identifier copied unchanged. -/
theorem claim_C6_length_and_order (nfkc : String → String)
    (raws : List RawEpisode) (h : ∀ ep ∈ raws, ep.enclosures ≠ []) :
    ∃ outs, process_episodes nfkc raws = some outs ∧
      outs.length = raws.length ∧
      ∀ i (hi : i < raws.length) (hio : i < outs.length),
        processEpisode nfkc (raws.get ⟨i, hi⟩) = some (outs.get ⟨i, hio⟩) ∧
        (outs.get ⟨i, hio⟩).guid = (raws.get ⟨i, hi⟩).guid := by
  induction raws with
  | nil => exact ⟨[], rfl, rfl, fun i hi => absurd hi (by simp)⟩
  | cons p rest ih =>
    obtain ⟨outs, h1, h2, h3⟩ := ih (fun x hx => h x (List.mem_cons_of_mem p hx))
    obtain ⟨e, hpe, hguid⟩ :
        ∃ e, processEpisode nfkc p = some e ∧ e.guid = p.guid :=
      ⟨_, processEpisode_some nfkc p (h p (List.mem_cons_self p rest)), rfl⟩
    refine ⟨e :: outs, ?_, ?_, ?_⟩
    · simp [process_episodes, hpe, h1]
    · simp [h2]
    · intro i hi hio
      cases i with
      | zero => exact ⟨hpe, hguid⟩
      | succ k =>
        exact h3 k (by simp only [List.length_cons] at hi; omega)
          (by simp only [List.length_cons] at hio; omega)

/-- Witness for C6 on a concrete two-record batch. -/
theorem claim_C6_witness :
    ∃ outs, process_episodes id [sampleEpisode, sampleNoDuration] = some outs ∧
      outs.length = [sampleEpisode, sampleNoDuration].length ∧
      ∀ i (hi : i < [sampleEpisode, sampleNoDuration].length) (hio : i < outs.length),
        processEpisode id ([sampleEpisode, sampleNoDuration].get ⟨i, hi⟩) =
          some (outs.get ⟨i, hio⟩) ∧
        (outs.get ⟨i, hio⟩).guid = ([sampleEpisode, sampleNoDuration].get ⟨i, hi⟩).guid :=
  claim_C6_length_and_order id [sampleEpisode, sampleNoDuration] (by decide)

/-- C7: the sanitized description is the raw HTML description passed
through, in order, smart-quote normalization, then replacement of the
two-character sequence backslash-plus by a bare plus, then the NFKC
normalization step (the external `unicodedata.normalize("NFKC", ·)`,
the parameter `nfkc`); the raw description is kept unchanged, and the
title gets only smart-quote normalization, never NFKC. -/
theorem claim_C7_description_pipeline (nfkc : String → String)
    (ep : RawEpisode) (henc : ep.enclosures ≠ []) :
    ∃ out, processEpisode nfkc ep = some out ∧
      out.description =
        nfkc (String.mk (replaceBackslashPlus (unsmart_quotes ep.description_html).data)) ∧
      out.raw_description = ep.description_html ∧
      out.title = unsmart_quotes ep.title :=
  ⟨_, processEpisode_some nfkc ep henc, rfl, rfl, rfl⟩

/-- Witness for C7 at a concrete record and a concrete (non-identity)
normalization function. -/
theorem claim_C7_witness :
    ∃ out, processEpisode (fun s => "N" ++ s) sampleEpisode = some out ∧
      out.description =
        (fun s => "N" ++ s)
          (String.mk (replaceBackslashPlus (unsmart_quotes sampleEpisode.description_html).data)) ∧
      out.raw_description = sampleEpisode.description_html ∧
      out.title = unsmart_quotes sampleEpisode.title :=
  claim_C7_description_pipeline (fun s => "N" ++ s) sampleEpisode (by decide)

end LRB
